import Mathlib

/-!
Verification development for the single-node ledger engine in
src/blockchain_validator_storyteller.rs.

The Rust source is shallowly embedded below: pure functions become Lean
functions, the stateful stores (sled trees, the in-memory maps behind
RwLock) become explicit association lists threaded through the functions,
u64 arithmetic is modelled on Nat with explicit reduction modulo 2 ^ 64
exactly where the source performs wrapping (release-mode) arithmetic, and
fallible code returns Except.  SHA-256 and ed25519 are abstracted as
function parameters: every property proved here is independent of the
concrete hash and signature algorithms.  The f64 diagnostics fields
(hash_rate_estimate and friends) are omitted; no logic below reads them.
-/

namespace Chronicle

/-- One more than the largest u64 value; u64 arithmetic is Nat arithmetic
reduced modulo this bound. -/
def U64 : Nat := 2 ^ 64

/-- Wrapping u64 addition: the semantics of a release-mode Rust `a + b`
on u64 operands. -/
def wadd (a b : Nat) : Nat := (a + b) % U64

/-- Wrapping u64 subtraction (operands below U64): release-mode `a - b`. -/
def wsub (a b : Nat) : Nat := (a % U64 + U64 - b % U64) % U64

/-- Wrapping u64 iterator sum: `iter().sum::<u64>()` in release mode. -/
def wsum (l : List Nat) : Nat := l.foldl wadd 0

/-- Rust `u64::checked_add`: `none` exactly when the sum overflows. -/
def checked_add (a b : Nat) : Option Nat :=
  if a + b < U64 then some (a + b) else none

/-! Section: Data model (structs from the source, same field names) -/

inductive ScriptType
  | PayToPublicKey
  | PayToMultiSig
  | PayToScriptHash
deriving DecidableEq, Repr

structure ScriptOfTruth where
  script_type : ScriptType
  required_signatures : Nat
  public_keys : List (List Nat)
deriving DecidableEq, Repr

structure UTXOReference where
  previous_story_id : String
  output_index : Nat
deriving DecidableEq, Repr

structure UTXOOutput where
  recipient_address : List Nat
  value_locked : Nat
  locking_script : ScriptOfTruth
deriving DecidableEq, Repr

structure TransactionStory where
  story_id : String
  inputs_consumed : List UTXOReference
  outputs_created : List UTXOOutput
  story_fee : Nat
  timestamp_of_telling : Nat
  transaction_nonce : Nat
  digital_signature : List Nat
  public_key_of_narrator : List Nat
deriving DecidableEq, Repr

/-- Proof-of-work record.  The f64 field hash_rate_estimate of the source
is omitted (floating-point diagnostics, read by no logic modelled here). -/
structure ProofOfWork where
  difficulty_target : Nat
  nonce_of_discovery : Nat
  storyteller_reward : Nat
deriving DecidableEq, Repr

structure BlockChapter where
  chapter_number : Nat
  timestamp_of_creation : Nat
  previous_chapter_essence : String
  transaction_tales : List TransactionStory
  merkle_tree_of_truth : String
  chapter_essence : String
  proof_of_storytelling : ProofOfWork
  chapter_size_bytes : Nat
deriving DecidableEq, Repr

/-- The error enum of the source (ChronicleError).  String payloads are
kept; note that the source spells the chain-corruption variant
ChronicleCorrupted in the enum declaration. -/
inductive ChronicleError
  | StoryBearsFalseWitness (msg : String)
  | NarratorLacksResources (msg : String)
  | ChronicleCorrupted (msg : String)
  | ProofOfWorkFailed (msg : String)
  | ConsensusNotReached (msg : String)
  | DatabaseError (msg : String)
  | SerializationError (msg : String)
  | NetworkError (msg : String)
  | InvalidPublicKey (msg : String)
  | InvalidSignature (msg : String)
  | UTXONotFound (key : String)
  | DuplicateStory (id : String)
  | InvalidNonce (n : Nat)
  | InsufficientFee (fee : Nat)
  | ValueOverflow
  | InsufficientFunds (required : Nat) (available : Nat)
deriving DecidableEq, Repr

deriving instance DecidableEq for Except

/-! Section: UTXO Ledger

The struct UTXOLedger holds an in-memory unspent map, an in-memory spent
set and a sled tree.  All three are modelled as association lists / lists;
an insert conses at the front, so List.lookup (first match wins) gives the
overwrite semantics of HashMap / sled. -/

structure UTXOLedger where
  unspent_outputs : List (String × UTXOOutput)
  spent_outputs : List String
  db : List (String × UTXOOutput)
deriving DecidableEq

/-- The key format used for every UTXO lookup: the source formats
previous_story_id, a colon, and the output index. -/
def utxo_key_of (i : UTXOReference) : String :=
  i.previous_story_id ++ ":" ++ toString i.output_index

/-- UTXOLedger::find_unspent_output: the in-memory unspent map is
consulted first, then the sled tree.  (The spent set is not consulted,
exactly as in the source.) -/
def find_unspent_output (ledger : UTXOLedger) (utxo_key : String) :
    Option UTXOOutput :=
  match List.lookup utxo_key ledger.unspent_outputs with
  | some utxo => some utxo
  | none => List.lookup utxo_key ledger.db

/-- verify_spending_authorization: the source accepts unconditionally
(script execution is out of scope there). -/
def verify_spending_authorization (_utxo : UTXOOutput) (_public_key : List Nat) :
    Except ChronicleError Unit := .ok ()

/-- The for-loop of verify_and_calculate_input_value, with the running
checked total made explicit. -/
def input_value_loop (ledger : UTXOLedger) (pk : List Nat) (total : Nat) :
    List UTXOReference → Except ChronicleError Nat
  | [] => .ok total
  | input :: rest =>
    let key := utxo_key_of input
    match find_unspent_output ledger key with
    | none => .error (.UTXONotFound key)
    | some utxo =>
      match verify_spending_authorization utxo pk with
      | .error e => .error e
      | .ok _ =>
        match checked_add total utxo.value_locked with
        | none => .error .ValueOverflow
        | some t => input_value_loop ledger pk t rest

/-- verify_and_calculate_input_value: resolves every input against the
ledger and accumulates the values with checked_add. -/
def verify_and_calculate_input_value (ledger : UTXOLedger)
    (story : TransactionStory) : Except ChronicleError Nat :=
  input_value_loop ledger story.public_key_of_narrator 0 story.inputs_consumed

/-- verify_transaction_nonce: rejects exactly a zero nonce. -/
def verify_transaction_nonce (story : TransactionStory) :
    Except ChronicleError Unit :=
  if story.transaction_nonce = 0 then .error (.InvalidNonce story.transaction_nonce)
  else .ok ()

/-- story_proves_its_authenticity.  The ed25519 check
(signature_tells_the_truth) is abstracted as the parameter sig_check; the
configured minimum fee is the parameter min_transaction_fee.  The output
total uses the wrapping iterator sum and the funds comparison adds the fee
with a wrapping add, exactly as the source does; only the input side goes
through checked_add. -/
def story_proves_its_authenticity
    (sig_check : TransactionStory → Except ChronicleError Bool)
    (min_transaction_fee : Nat) (ledger : UTXOLedger)
    (story : TransactionStory) : Except ChronicleError Unit :=
  match sig_check story with
  | .error e => .error e
  | .ok sig_ok =>
    if sig_ok = false then
      .error (.StoryBearsFalseWitness "Digital signature verification failed")
    else
      match verify_and_calculate_input_value ledger story with
      | .error e => .error e
      | .ok total_input_value =>
        let total_output_value :=
          wsum (story.outputs_created.map (fun o => o.value_locked))
        if total_input_value < wadd total_output_value story.story_fee then
          .error (.NarratorLacksResources
            "Insufficient input value to cover outputs and fees")
        else if story.story_fee < min_transaction_fee then
          .error (.InsufficientFee story.story_fee)
        else
          match verify_transaction_nonce story with
          | .error e => .error e
          | .ok _ => .ok ()

/-- The values the ledger currently reports for a list of input
references, when every reference resolves. -/
def resolved_input_values (ledger : UTXOLedger) :
    List UTXOReference → Option (List Nat)
  | [] => some []
  | i :: rest =>
    match find_unspent_output ledger (utxo_key_of i) with
    | none => none
    | some u =>
      match resolved_input_values ledger rest with
      | none => none
      | some vs => some (u.value_locked :: vs)

/-! Section: Chain Repository

ChainRepository holds three sled trees, the shared chain tip and the
hash-to-height index.  The utxo_db tree is opened but never used by the
functions modelled here.  The field flushed_blocks models the durable
(on-disk) view of the block tree: it is refreshed exactly when the source
calls flush_async.  add_block_chapter additionally returns the ordered
list of the state-changing steps it performed, so that ordering claims
can be stated. -/

structure ChainRepository where
  block_db : List (String × BlockChapter)
  tx_db : List (String × TransactionStory)
  chain_tip : Option BlockChapter
  block_index : List (String × Nat)
  flushed_blocks : List (String × BlockChapter)
deriving DecidableEq

/-- The empty repository (fresh sled trees, no tip). -/
def ChainRepository.empty : ChainRepository :=
  { block_db := [], tx_db := [], chain_tip := none, block_index := [],
    flushed_blocks := [] }

/-- Key format for the block tree: the word block, an underscore, and the
chapter number zero-padded to 10 digits. -/
def block_key (n : Nat) : String :=
  let s := toString n
  "block_" ++ String.mk (List.replicate (10 - s.length) '0') ++ s

/-- The observable steps of add_block_chapter, in execution order. -/
inductive RepoEvent
  | insertBlock (key : String)
  | insertTx (id : String)
  | updateTip
  | updateIndex
  | flush
deriving DecidableEq, Repr

/-- The for-loop of add_block_chapter that stores each transaction of the
block into the transaction tree. -/
def store_transactions (db : List (String × TransactionStory))
    (txs : List TransactionStory) : List (String × TransactionStory) :=
  txs.foldl (fun d t => (t.story_id, t) :: d) db

/-- ChainRepository::add_block_chapter.  Exactly as in the source: store
the block, store its transactions, update the shared tip, update the
hash-to-height index, and finally flush the block tree.  No validation of
previous_chapter_essence or chapter_number is performed anywhere in this
function. -/
def add_block_chapter (repo : ChainRepository) (block : BlockChapter) :
    ChainRepository × List RepoEvent :=
  let key := block_key block.chapter_number
  let db1 := (key, block) :: repo.block_db
  let tx1 := store_transactions repo.tx_db block.transaction_tales
  let repo1 : ChainRepository :=
    { block_db := db1
      tx_db := tx1
      chain_tip := some block
      block_index := (block.chapter_essence, block.chapter_number) :: repo.block_index
      flushed_blocks := db1 }
  (repo1,
    .insertBlock key ::
      block.transaction_tales.map (fun t => .insertTx t.story_id) ++
      [.updateTip, .updateIndex, .flush])

/-- sled last(): the entry with the largest key (keys are byte-ordered;
block keys are zero-padded so byte order is numeric order).  On duplicate
keys the entry nearest the front of the list — the newest insert — wins. -/
def sled_last (l : List (String × BlockChapter)) : Option (String × BlockChapter) :=
  l.foldl (fun acc p =>
    match acc with
    | none => some p
    | some q => if q.1 < p.1 then some p else some q) none

/-- ChainRepository::get_chain_tip: the shared tip if set, otherwise the
block under the largest key of the block tree. -/
def get_chain_tip (repo : ChainRepository) : Option BlockChapter :=
  match repo.chain_tip with
  | some b => some b
  | none => (sled_last repo.block_db).map (fun p => p.2)

/-- ChainRepository::transaction_exists: key lookup in the transaction
tree. -/
def transaction_exists (repo : ChainRepository) (tx_id : String) : Bool :=
  (List.lookup tx_id repo.tx_db).isSome

/-! Section: Merkle Commitment Builder -/

/-- The all-zero sentinel: 64 zero characters, the value of the Rust
string repeat of the character 0. -/
def zeros64 : String := String.mk (List.replicate 64 '0')

/-- One level of the merkle fold: chunks of two are combined with the
node hash; an odd trailing hash is paired with itself. -/
def merkle_level (node_hash : String → String → String) :
    List String → List String
  | [] => []
  | [a] => [node_hash a a]
  | a :: b :: rest => node_hash a b :: merkle_level node_hash rest

theorem merkle_level_length (node_hash : String → String → String) :
    ∀ l : List String, (merkle_level node_hash l).length = (l.length + 1) / 2
  | [] => rfl
  | [_] => by simp [merkle_level]
  | _ :: _ :: rest => by
    simp [merkle_level, merkle_level_length node_hash rest]
    omega

/-- The while-loop of weave_merkle_tree_of_truth: collapse levels until
one hash remains, then take it (with the all-zero fallback of the
source's unwrap_or_else). -/
def merkle_collapse (node_hash : String → String → String)
    (l : List String) : String :=
  if _h : l.length ≤ 1 then l.headD zeros64
  else merkle_collapse node_hash (merkle_level node_hash l)
termination_by l.length
decreasing_by
  simp only [merkle_level_length]
  omega

/-- weave_merkle_tree_of_truth, with SHA-256 abstracted: leaf_hash is the
hex digest of a story id, node_hash the hex digest of two concatenated
hex digests.  An empty transaction list yields the all-zero sentinel. -/
def weave_merkle_tree_of_truth (leaf_hash : String → String)
    (node_hash : String → String → String)
    (transactions : List TransactionStory) : String :=
  if transactions.isEmpty then zeros64
  else merkle_collapse node_hash
    (transactions.map (fun tx => leaf_hash tx.story_id))

/-! Section: Mining Engine -/

/-- hash_meets_difficulty: required count of leading zero hex characters,
computed from the u64 leading-zero count of the target.  The string
prefix test of the source is embedded as a character-list prefix test. -/
def bit_length_aux : Nat → Nat → Nat
  | 0, _ => 0
  | fuel + 1, n => if n = 0 then 0 else bit_length_aux fuel (n / 2) + 1

def u64_leading_zeros (target : Nat) : Nat :=
  64 - bit_length_aux 64 target

def hash_meets_difficulty (hash : String) (difficulty_target : Nat) : Bool :=
  let leading := u64_leading_zeros difficulty_target / 4
  (List.replicate leading '0').isPrefixOf hash.data

/-- The start of worker thread_id's nonce range: thread_id * 1,000,000,
exactly as written in perform_proof_of_work. -/
def miner_start (thread_id : Nat) : Nat := thread_id * 1000000

/-- The length of every worker's nonce range: the source iterates from
start_nonce to start_nonce + 10,000,000. -/
def miner_range_len : Nat := 10000000

/-- Membership in worker thread_id's searched nonce range. -/
def in_miner_range (thread_id nonce : Nat) : Prop :=
  miner_start thread_id ≤ nonce ∧ nonce < miner_start thread_id + miner_range_len

instance (i n : Nat) : Decidable (in_miner_range i n) :=
  inferInstanceAs (Decidable (_ ∧ _))

/-- One worker body: scan the range in order, send the first qualifying
(hash, nonce) pair, or send nothing.  block_hash abstracts
calculate_block_hash applied to the fixed candidate block. -/
def worker_sent (block_hash : Nat → String) (difficulty_target : Nat)
    (thread_id : Nat) : Option (String × Nat) :=
  ((List.range' (miner_start thread_id) miner_range_len).find?
      (fun nonce => hash_meets_difficulty (block_hash nonce) difficulty_target)).map
    (fun nonce => (block_hash nonce, nonce))

/-- What an awaited recv() on the tokio unbounded channel observes:
a queued message if any worker sent one; the closed channel (None) only
once every sender has been dropped; otherwise the await never completes. -/
inductive RecvOutcome
  | received (msg : String × Nat)
  | channelClosed
  | blocksForever
deriving DecidableEq, Repr

def recv_outcome (messages : List (String × Nat))
    (all_senders_dropped : Bool) : RecvOutcome :=
  match messages with
  | m :: _ => .received m
  | [] => if all_senders_dropped then .channelClosed else .blocksForever

/-- perform_proof_of_work as written: the workers share clones of the
sender tx while the prototype tx itself stays alive in the function's
scope for the whole await of recv, so all_senders_dropped is false even
after every worker has finished. -/
def perform_proof_of_work (block_hash : Nat → String)
    (difficulty_target num_threads : Nat) : RecvOutcome :=
  recv_outcome
    ((List.range num_threads).filterMap (worker_sent block_hash difficulty_target))
    false

/-! Section: Chain Orchestrator -/

/-- ChronicleConfiguration (Duration values in whole seconds). -/
structure ChronicleConfiguration where
  target_block_time : Nat
  difficulty_adjustment_interval : Nat
  max_block_size : Nat
  min_transaction_fee : Nat
  base_mining_reward : Nat
  reward_halving_interval : Nat
  max_peers : Nat
  network_port : Nat
  data_directory : String
deriving DecidableEq

/-- The base difficulty constant of calculate_current_difficulty, as the
numeral written in the source.  (As written it exceeds u64; it is kept
here as the literal value.) -/
def base_difficulty : Nat :=
  0x00000FFFFFFFFFFFFFFFFFFFFFFFFFFFFFFFFFFFFFFFFFFFFFFFFFFFFFFFFFFF

/-- calculate_current_difficulty: halve the base constant on adjustment
boundaries past genesis, otherwise inherit the previous target. -/
def calculate_current_difficulty (previous_block : BlockChapter)
    (config : ChronicleConfiguration) : Nat :=
  if previous_block.chapter_number % config.difficulty_adjustment_interval = 0 ∧
      0 < previous_block.chapter_number then
    base_difficulty / 2
  else previous_block.proof_of_storytelling.difficulty_target

/-- mine_new_chapter.  Nondeterministic effects of the source become
parameters: ts is the wall clock, serialized_size the bincode length of
the final block, leaf_hash / node_hash the SHA-256 uses of the merkle
builder, and pow_result the outcome the proof-of-work call reports —
some (hash, nonce) on success, none for the written failure branch that
returns ProofOfWorkFailed (the channel model above settles when that
branch is reachable).  On success the block is committed through
add_block_chapter; no other state is touched. -/
def mine_new_chapter (config : ChronicleConfiguration)
    (leaf_hash : String → String) (node_hash : String → String → String)
    (pow_result : Option (String × Nat)) (ts serialized_size : Nat)
    (transactions : List TransactionStory) (chain_repo : ChainRepository) :
    Except ChronicleError (ChainRepository × List RepoEvent × BlockChapter) :=
  match get_chain_tip chain_repo with
  | none => .error (.ChronicleCorrupted "No chain tip found")
  | some previous_block =>
    let merkle := weave_merkle_tree_of_truth leaf_hash node_hash transactions
    match pow_result with
    | none => .error (.ProofOfWorkFailed "No solution found")
    | some (hash, nonce) =>
      let block : BlockChapter :=
        { chapter_number := previous_block.chapter_number + 1
          timestamp_of_creation := ts
          previous_chapter_essence := previous_block.chapter_essence
          transaction_tales := transactions
          merkle_tree_of_truth := merkle
          chapter_essence := hash
          proof_of_storytelling :=
            { difficulty_target := calculate_current_difficulty previous_block config
              nonce_of_discovery := nonce
              storyteller_reward := config.base_mining_reward }
          chapter_size_bytes := serialized_size }
      let committed := add_block_chapter chain_repo block
      .ok (committed.1, committed.2, block)

/-- The difficulty constant of the genesis block, as written. -/
def genesis_difficulty : Nat :=
  0x0FFFFFFFFFFFFFFFFFFFFFFFFFFFFFFFFFFFFFFFFFFFFFFFFFFFFFFFFFFFFFFF

/-- The genesis block built by craft_and_commit_genesis_chapter: its
merkle root field is the literal string genesis, its content hash the
literal string genesis_hash. -/
def craft_genesis_chapter (ts : Nat) : BlockChapter :=
  { chapter_number := 0
    timestamp_of_creation := ts
    previous_chapter_essence := zeros64
    transaction_tales := []
    merkle_tree_of_truth := "genesis"
    chapter_essence := "genesis_hash"
    proof_of_storytelling :=
      { difficulty_target := genesis_difficulty
        nonce_of_discovery := 0
        storyteller_reward := 0 }
    chapter_size_bytes := 0 }

def craft_and_commit_genesis_chapter (repo : ChainRepository) (ts : Nat) :
    ChainRepository × List RepoEvent :=
  add_block_chapter repo (craft_genesis_chapter ts)

/-- The orchestrator state mine_new_chapter can reach: the chain
repository and the UTXO ledger.  (The mempool is handled separately by
the loop model below.) -/
structure SystemState where
  chain_repo : ChainRepository
  utxo_ledger : UTXOLedger
deriving DecidableEq

/-- One successful-or-failed mining commit at the system level.
mine_new_chapter receives only the chain repository and configuration —
the UTXO ledger is not among its arguments in the source — so the ledger
component is carried across unchanged. -/
def mining_commit (config : ChronicleConfiguration)
    (leaf_hash : String → String) (node_hash : String → String → String)
    (pow_result : Option (String × Nat)) (ts serialized_size : Nat)
    (transactions : List TransactionStory) (sys : SystemState) :
    Except ChronicleError SystemState :=
  match mine_new_chapter config leaf_hash node_hash pow_result ts
      serialized_size transactions sys.chain_repo with
  | .error e => .error e
  | .ok (repo1, _, _) =>
    .ok { chain_repo := repo1, utxo_ledger := sys.utxo_ledger }

/-! Section: Mempool -/

/-- The sort order of both mempool sorts: descending story_fee (the Rust
comparator compares b to a). -/
def fee_ge (a b : TransactionStory) : Prop := b.story_fee ≤ a.story_fee

instance : DecidableRel fee_ge :=
  fun a b => inferInstanceAs (Decidable (b.story_fee ≤ a.story_fee))

instance : IsTotal TransactionStory fee_ge :=
  ⟨fun a b => le_total b.story_fee a.story_fee⟩

instance : IsTrans TransactionStory fee_ge :=
  ⟨fun _ _ _ h1 h2 => le_trans h2 h1⟩

/-- Vec::sort_by with the descending-fee comparator: a stable sort by
descending story_fee, embedded as a stable insertion sort over the same
order. -/
def sort_by_fee_desc (pool : List TransactionStory) : List TransactionStory :=
  List.insertionSort fee_ge pool

/-- The mempool block of transaction_story_arrives: push the story, and
when the pool now exceeds 10000 entries, sort it by descending fee and
truncate it to 10000. -/
def mempool_push (mempool : List TransactionStory) (story : TransactionStory) :
    List TransactionStory :=
  let pushed := mempool ++ [story]
  if 10000 < pushed.length then (sort_by_fee_desc pushed).take 10000
  else pushed

/-- story_proves_its_uniqueness: reject ids already on chain or already
in the mempool. -/
def story_proves_its_uniqueness (repo : ChainRepository)
    (mempool : List TransactionStory) (story : TransactionStory) :
    Except ChronicleError Unit :=
  if transaction_exists repo story.story_id then
    .error (.DuplicateStory story.story_id)
  else if mempool.any (fun t => t.story_id == story.story_id) then
    .error (.DuplicateStory story.story_id)
  else .ok ()

/-- transaction_story_arrives: authenticity trial, uniqueness trial, then
admission into the mempool (the network broadcast is a print-only stub).
Returns the new mempool. -/
def transaction_story_arrives
    (sig_check : TransactionStory → Except ChronicleError Bool)
    (min_transaction_fee : Nat) (repo : ChainRepository)
    (ledger : UTXOLedger) (mempool : List TransactionStory)
    (story : TransactionStory) : Except ChronicleError (List TransactionStory) :=
  match story_proves_its_authenticity sig_check min_transaction_fee ledger story with
  | .error e => .error e
  | .ok _ =>
    match story_proves_its_uniqueness repo mempool story with
    | .error e => .error e
    | .ok _ => .ok (mempool_push mempool story)

/-- One period of the loop in begin_the_eternal_mining_quest with a
non-empty pool skipped when empty: sort the pool by descending fee, drain
the first min(1000, len) transactions out of it, and call
mine_new_chapter on them; a mining error is only printed.  The function
returns the pool the next period starts from together with the mining
result — the source contains no code path that returns drained
transactions to the pool. -/
def mining_period (config : ChronicleConfiguration)
    (leaf_hash : String → String) (node_hash : String → String → String)
    (pow_result : Option (String × Nat)) (ts serialized_size : Nat)
    (mempool : List TransactionStory) (repo : ChainRepository) :
    List TransactionStory × Except ChronicleError ChainRepository :=
  if mempool.isEmpty then (mempool, .ok repo)
  else
    let sorted := sort_by_fee_desc mempool
    let n := min 1000 sorted.length
    let selected := sorted.take n
    let remaining := sorted.drop n
    match mine_new_chapter config leaf_hash node_hash pow_result ts
        serialized_size selected repo with
    | .error _ => (remaining, .ok repo)
    | .ok (repo1, _, _) => (remaining, .ok repo1)

/-! Section: Transaction construction (create_transaction) -/

def u64_le_bytes (n : Nat) : List Nat :=
  (List.range 8).map (fun i => n / 2 ^ (8 * i) % 256)

def u32_le_bytes (n : Nat) : List Nat :=
  (List.range 4).map (fun i => n / 2 ^ (8 * i) % 256)

def str_bytes (s : String) : List Nat :=
  s.toUTF8.toList.map (fun b => b.toNat)

/-- create_signable_message: id bytes, little-endian timestamp and nonce,
then every input (id bytes, little-endian u32 index) and every output
(recipient bytes, little-endian u64 value). -/
def create_signable_message (story : TransactionStory) : List Nat :=
  str_bytes story.story_id ++
    u64_le_bytes story.timestamp_of_telling ++
    u64_le_bytes story.transaction_nonce ++
    story.inputs_consumed.flatMap
      (fun i => str_bytes i.previous_story_id ++ u32_le_bytes i.output_index) ++
    story.outputs_created.flatMap
      (fun o => o.recipient_address ++ u64_le_bytes o.value_locked)

/-- The UTXO-selection loop of create_transaction: push each candidate,
add its value to the running total (a plain u64 add in the source), and
stop as soon as the total covers amount + fee. -/
def select_utxos_loop (target : Nat)
    (selected : List (UTXOReference × UTXOOutput)) (total_input : Nat) :
    List (UTXOReference × UTXOOutput) →
      List (UTXOReference × UTXOOutput) × Nat
  | [] => (selected, total_input)
  | u :: rest =>
    let selected1 := selected ++ [u]
    let total1 := wadd total_input u.2.value_locked
    if target ≤ total1 then (selected1, total1)
    else select_utxos_loop target selected1 total1 rest

/-- The locking script create_transaction attaches to an output. -/
def pay_to_key_script (address : List Nat) : ScriptOfTruth :=
  { script_type := .PayToPublicKey
    required_signatures := 1
    public_keys := [address] }

/-- create_transaction.  Parameters replacing ambient nondeterminism of
the source: gen_tx_id and gen_nonce for the random id and nonce, ts for
the clock, sign for Keypair::sign, sender_address for the public key
bytes of from_keypair, and utxos for the list find_utxos_for_address
returned.  Selection, the funds check, the change output (added only for
strictly positive change) and the final signing follow the source line by
line. -/
def create_transaction (gen_tx_id : String) (gen_nonce ts : Nat)
    (sign : List Nat → List Nat) (sender_address : List Nat)
    (utxos : List (UTXOReference × UTXOOutput))
    (to_address : List Nat) (amount fee : Nat) :
    Except ChronicleError TransactionStory :=
  let target := wadd amount fee
  let selection := select_utxos_loop target [] 0 utxos
  let selected := selection.1
  let total_input := selection.2
  if total_input < target then
    .error (.InsufficientFunds target total_input)
  else
    let change := wsub (wsub total_input amount) fee
    let outputs :=
      { recipient_address := to_address
        value_locked := amount
        locking_script := pay_to_key_script to_address } ::
      (if 0 < change then
        [{ recipient_address := sender_address
           value_locked := change
           locking_script := pay_to_key_script sender_address }]
       else [])
    let transaction : TransactionStory :=
      { story_id := gen_tx_id
        inputs_consumed := selected.map (fun u => u.1)
        outputs_created := outputs
        story_fee := fee
        timestamp_of_telling := ts
        transaction_nonce := gen_nonce
        digital_signature := []
        public_key_of_narrator := sender_address }
    .ok { transaction with
          digital_signature := sign (create_signable_message transaction) }

/-! Section: Helper lemmas -/

theorem wadd_eq {a b : Nat} (h : a + b < U64) : wadd a b = a + b := by
  simp [wadd, Nat.mod_eq_of_lt h]

theorem wsub_eq {a b : Nat} (ha : a < U64) (hb : b ≤ a) : wsub a b = a - b := by
  have hbU : b < U64 := lt_of_le_of_lt hb ha
  have h1 : a % U64 = a := Nat.mod_eq_of_lt ha
  have h2 : b % U64 = b := Nat.mod_eq_of_lt hbU
  have h3 : a % U64 + U64 - b % U64 = U64 + (a - b) := by omega
  rw [wsub, h3, Nat.add_mod_left, Nat.mod_eq_of_lt (by omega)]

theorem checked_add_some {a b : Nat} (h : a + b < U64) :
    checked_add a b = some (a + b) := by
  simp [checked_add, h]

theorem checked_add_none {a b : Nat} (h : U64 ≤ a + b) :
    checked_add a b = none := by
  simp [checked_add]
  omega

/-- The input-value loop computes the exact mathematical sum of the
resolved values when no step overflows, and stops with ValueOverflow on
the first step that would. -/
theorem input_value_loop_spec (ledger : UTXOLedger) (pk : List Nat) :
    ∀ (inputs : List UTXOReference) (total : Nat) (vs : List Nat),
      total < U64 →
      resolved_input_values ledger inputs = some vs →
      input_value_loop ledger pk total inputs =
        (if total + vs.sum < U64 then .ok (total + vs.sum)
         else .error .ValueOverflow)
  | [], total, vs, htot, hres => by
    simp [resolved_input_values] at hres
    subst hres
    simp [input_value_loop, htot]
  | input :: rest, total, vs, htot, hres => by
    simp only [resolved_input_values] at hres
    cases hfind : find_unspent_output ledger (utxo_key_of input) with
    | none => rw [hfind] at hres; exact absurd hres (by simp)
    | some u =>
      rw [hfind] at hres
      cases hrest : resolved_input_values ledger rest with
      | none => rw [hrest] at hres; exact absurd hres (by simp)
      | some vs2 =>
        rw [hrest] at hres
        simp only [Option.some.injEq] at hres
        subst hres
        simp only [input_value_loop, hfind, verify_spending_authorization]
        by_cases hov : total + u.value_locked < U64
        · rw [checked_add_some hov]
          show input_value_loop ledger pk (total + u.value_locked) rest = _
          rw [input_value_loop_spec ledger pk rest (total + u.value_locked) vs2 hov hrest]
          simp only [List.sum_cons, ← Nat.add_assoc]
        · rw [checked_add_none (by omega)]
          show Except.error ChronicleError.ValueOverflow = _
          simp only [List.sum_cons]
          rw [if_neg (by omega)]

/-- The UTXO-selection loop preserves the invariant that the running
total is the exact sum of the selected values, as long as the combined
value fits in u64. -/
theorem select_utxos_loop_spec (target : Nat) :
    ∀ (utxos selected : List (UTXOReference × UTXOOutput)) (total : Nat),
      total = (selected.map (fun u => u.2.value_locked)).sum →
      total + ((utxos.map (fun u => u.2.value_locked)).sum) < U64 →
      (select_utxos_loop target selected total utxos).2 =
          (((select_utxos_loop target selected total utxos).1.map
            (fun u => u.2.value_locked)).sum) ∧
        (select_utxos_loop target selected total utxos).2 < U64
  | [], selected, total, hinv, hbound => by
    simp [select_utxos_loop, hinv] at *
    omega
  | u :: rest, selected, total, hinv, hbound => by
    simp only [List.map_cons, List.sum_cons] at hbound
    have hfit : total + u.2.value_locked < U64 := by omega
    have hw : wadd total u.2.value_locked = total + u.2.value_locked :=
      wadd_eq hfit
    have hinv1 : total + u.2.value_locked =
        ((selected ++ [u]).map (fun v => v.2.value_locked)).sum := by
      simp [hinv]
    simp only [select_utxos_loop, hw]
    by_cases hstop : target ≤ total + u.2.value_locked
    · rw [if_pos hstop]
      exact ⟨hinv1, hfit⟩
    · rw [if_neg hstop]
      exact select_utxos_loop_spec target rest (selected ++ [u])
        (total + u.2.value_locked) hinv1 (by omega)

theorem lookup_store_transactions_not_mem
    (k : String) :
    ∀ (txs : List TransactionStory) (db : List (String × TransactionStory)),
      k ∉ txs.map (fun t => t.story_id) →
      List.lookup k (store_transactions db txs) = List.lookup k db
  | [], db, _ => rfl
  | t :: rest, db, h => by
    simp only [List.map_cons, List.mem_cons, not_or] at h
    have := lookup_store_transactions_not_mem k rest ((t.story_id, t) :: db) h.2
    simp only [store_transactions, List.foldl_cons] at *
    rw [this]
    have hb : (k == t.story_id) = false := beq_eq_false_iff_ne.mpr h.1
    simp [List.lookup, hb]

/-- Storing the transactions of a block makes each of them retrievable
by id, provided the ids within the block are distinct. -/
theorem lookup_store_transactions
    (t : TransactionStory) :
    ∀ (txs : List TransactionStory) (db : List (String × TransactionStory)),
      (txs.map (fun s => s.story_id)).Nodup → t ∈ txs →
      List.lookup t.story_id (store_transactions db txs) = some t
  | [], _, _, hmem => absurd hmem (by simp)
  | x :: rest, db, hnd, hmem => by
    simp only [List.map_cons, List.nodup_cons] at hnd
    rcases List.mem_cons.mp hmem with heq | hmem2
    · subst heq
      simp only [store_transactions, List.foldl_cons]
      rw [show List.foldl (fun d s => (s.story_id, s) :: d)
            ((t.story_id, t) :: db) rest =
          store_transactions ((t.story_id, t) :: db) rest from rfl,
        lookup_store_transactions_not_mem t.story_id rest _ hnd.1]
      simp [List.lookup]
    · simp only [store_transactions, List.foldl_cons]
      exact lookup_store_transactions t rest ((x.story_id, x) :: db) hnd.2 hmem2

/-- Characterization of a successful mine_new_chapter call: the block it
commits carries exactly the selected transactions, the merkle root the
builder computes for them, and the proof-of-work hash and nonce; the
repository it returns is the committed one and its tip is that block. -/
theorem mine_new_chapter_ok_spec (config : ChronicleConfiguration)
    (leaf_hash : String → String) (node_hash : String → String → String)
    (pow_result : Option (String × Nat)) (ts serialized_size : Nat)
    (transactions : List TransactionStory) (chain_repo : ChainRepository)
    (repo1 : ChainRepository) (events : List RepoEvent) (block : BlockChapter)
    (h : mine_new_chapter config leaf_hash node_hash pow_result ts
        serialized_size transactions chain_repo = .ok (repo1, events, block)) :
    block.transaction_tales = transactions ∧
      block.merkle_tree_of_truth =
        weave_merkle_tree_of_truth leaf_hash node_hash transactions ∧
      (repo1, events) = add_block_chapter chain_repo block ∧
      repo1.chain_tip = some block := by
  unfold mine_new_chapter at h
  cases htip : get_chain_tip chain_repo with
  | none => rw [htip] at h; exact absurd h (by simp)
  | some prev =>
    rw [htip] at h
    cases pow_result with
    | none => exact absurd h (by simp)
    | some hn =>
      simp only [Except.ok.injEq, Prod.mk.injEq] at h
      obtain ⟨h1, h2, h3⟩ := h
      subst h3
      constructor
      · rfl
      constructor
      · rfl
      constructor
      · rw [← h1, ← h2]
      · rw [← h1]
        rfl

/-! Section: Shared concrete fixtures used by the claim theorems -/

/-- The Default impl of ChronicleConfiguration from the source. -/
def default_configuration : ChronicleConfiguration :=
  { target_block_time := 600
    difficulty_adjustment_interval := 2016
    max_block_size := 1048576
    min_transaction_fee := 1000
    base_mining_reward := 5000000000
    reward_halving_interval := 210000
    max_peers := 50
    network_port := 8333
    data_directory := "./blockchain_data" }

/-- A signature oracle that accepts every story (the cryptographic layer
is out of scope of the properties below). -/
def sig_always_ok : TransactionStory → Except ChronicleError Bool :=
  fun _ => .ok true

/-- Concrete stand-ins for the abstract hash parameters. -/
def leaf_hash_ex : String → String := fun s => s

def node_hash_ex : String → String → String := fun a b => a ++ b

/-- A repository holding exactly the committed genesis block. -/
def repoG_ex : ChainRepository :=
  (craft_and_commit_genesis_chapter ChainRepository.empty 0).1

def out_ex : UTXOOutput :=
  { recipient_address := [1], value_locked := 5000
    locking_script := pay_to_key_script [1] }

/-- A ledger in which the output tx0:0 of value 5000 is unspent. -/
def ledger_ex : UTXOLedger :=
  { unspent_outputs := [("tx0:0", out_ex)], spent_outputs := [], db := [] }

def sys0_ex : SystemState :=
  { chain_repo := repoG_ex, utxo_ledger := ledger_ex }

/-- A story consuming tx0:0 (5000) into an output of 4000 plus fee 1000. -/
def txA_ex : TransactionStory :=
  { story_id := "a"
    inputs_consumed := [{ previous_story_id := "tx0", output_index := 0 }]
    outputs_created :=
      [{ recipient_address := [2], value_locked := 4000
         locking_script := pay_to_key_script [2] }]
    story_fee := 1000
    timestamp_of_telling := 0
    transaction_nonce := 1
    digital_signature := []
    public_key_of_narrator := [1] }

/-- A second story spending the same output tx0:0. -/
def txB_ex : TransactionStory := { txA_ex with story_id := "b" }

def t_ex : TransactionStory := { txA_ex with story_id := "t" }

/-! Section: Claim C1 -/

/-- The system state after committing a block carrying txA_ex. -/
def c1_sys1 : SystemState :=
  (mining_commit default_configuration leaf_hash_ex node_hash_ex
      (some ("h1", 7)) 0 0 [txA_ex] sys0_ex).toOption.getD sys0_ex

/-- Claim C1 counterexample: a block containing txA_ex, which consumes
the unspent output tx0:0, is committed successfully, yet afterwards
tx0:0 is not marked spent (the spent set is still empty), it is still
reported unspent, and the distinct story txB_ex spending the very same
output still passes the full authenticity validation — the block's
effects were never applied to the UTXO Ledger and a double spend of an
output consumed by an earlier-committed transaction is accepted. -/
theorem C1_counterexample :
    (mining_commit default_configuration leaf_hash_ex node_hash_ex
        (some ("h1", 7)) 0 0 [txA_ex] sys0_ex).isOk = true ∧
    txA_ex.inputs_consumed.map utxo_key_of = ["tx0:0"] ∧
    c1_sys1.utxo_ledger.spent_outputs = [] ∧
    find_unspent_output c1_sys1.utxo_ledger "tx0:0" = some out_ex ∧
    story_proves_its_authenticity sig_always_ok 1000
      c1_sys1.utxo_ledger txB_ex = .ok () ∧
    txB_ex.story_id ≠ txA_ex.story_id := by decide

/-- Claim C1 (amended): committing a mined block updates only the chain
repository.  The UTXO Ledger is returned unchanged — its spent set is
untouched and every lookup is unchanged, so every validation outcome
(including that of a story re-spending an output consumed by the
just-committed block) is unchanged — even though the commit does install
a block carrying the selected transactions as the new tip. -/
theorem C1_commit_leaves_ledger_unchanged (config : ChronicleConfiguration)
    (leaf_hash : String → String) (node_hash : String → String → String)
    (pow_result : Option (String × Nat)) (ts serialized_size : Nat)
    (transactions : List TransactionStory) (sys sys1 : SystemState)
    (h : mining_commit config leaf_hash node_hash pow_result ts
        serialized_size transactions sys = .ok sys1) :
    sys1.utxo_ledger = sys.utxo_ledger ∧
    sys1.utxo_ledger.spent_outputs = sys.utxo_ledger.spent_outputs ∧
    (∀ key, find_unspent_output sys1.utxo_ledger key
        = find_unspent_output sys.utxo_ledger key) ∧
    (∀ sig_check min_fee story,
      story_proves_its_authenticity sig_check min_fee sys1.utxo_ledger story
        = story_proves_its_authenticity sig_check min_fee sys.utxo_ledger story) ∧
    (∃ block, sys1.chain_repo.chain_tip = some block ∧
      block.transaction_tales = transactions) := by
  unfold mining_commit at h
  cases hm : mine_new_chapter config leaf_hash node_hash pow_result ts
      serialized_size transactions sys.chain_repo with
  | error e => rw [hm] at h; exact absurd h (by simp)
  | ok trip =>
    rw [hm] at h
    obtain ⟨repo1, events, block⟩ := trip
    have hspec := mine_new_chapter_ok_spec _ _ _ _ _ _ _ _ _ _ _ hm
    simp only [Except.ok.injEq] at h
    subst h
    exact ⟨rfl, rfl, fun _ => rfl, fun _ _ _ => rfl,
      block, hspec.2.2.2, hspec.1⟩

/-- Claim C1 witness: the amended statement at the concrete commit of a
block carrying txA_ex. -/
theorem C1_witness :
    ∃ sys1, mining_commit default_configuration leaf_hash_ex node_hash_ex
        (some ("h1", 7)) 0 0 [txA_ex] sys0_ex = .ok sys1 ∧
      sys1.utxo_ledger = sys0_ex.utxo_ledger ∧
      (∃ block, sys1.chain_repo.chain_tip = some block ∧
        block.transaction_tales = [txA_ex]) := by
  obtain ⟨sys1, h⟩ : ∃ s, mining_commit default_configuration leaf_hash_ex
      node_hash_ex (some ("h1", 7)) 0 0 [txA_ex] sys0_ex = .ok s := ⟨_, rfl⟩
  have hc := C1_commit_leaves_ledger_unchanged _ _ _ _ _ _ _ _ _ h
  exact ⟨sys1, h, hc.1, hc.2.2.2.2⟩

/-! Section: Claim C2 -/

/-- A block violating both append conditions against a genesis tip:
previous hash zzz (the tip's content hash is genesis_hash) and sequence
number 5 (the tip's is 0). -/
def bad_block_ex : BlockChapter :=
  { chapter_number := 5
    timestamp_of_creation := 0
    previous_chapter_essence := "zzz"
    transaction_tales := []
    merkle_tree_of_truth := "m"
    chapter_essence := "bbb"
    proof_of_storytelling :=
      { difficulty_target := 1, nonce_of_discovery := 0, storyteller_reward := 0 }
    chapter_size_bytes := 0 }

/-- Claim C2 counterexample: against a repository whose tip is the
genesis block, bad_block_ex violates both claimed validation conditions,
yet add_block_chapter persists it — it is retrievable under its block
key — and even makes it the new tip. -/
theorem C2_counterexample :
    get_chain_tip repoG_ex = some (craft_genesis_chapter 0) ∧
    bad_block_ex.previous_chapter_essence
      ≠ (craft_genesis_chapter 0).chapter_essence ∧
    bad_block_ex.chapter_number ≠ (craft_genesis_chapter 0).chapter_number + 1 ∧
    List.lookup (block_key bad_block_ex.chapter_number)
      (add_block_chapter repoG_ex bad_block_ex).1.block_db = some bad_block_ex ∧
    (add_block_chapter repoG_ex bad_block_ex).1.chain_tip = some bad_block_ex := by
  decide

/-- Claim C2 (amended): add_block_chapter performs no validation at all.
For every repository and every block — in particular blocks violating
the previous-hash or sequence conditions — it persists the block under
its zero-padded sequence key, persists each of its transactions
retrievably by id (distinct ids assumed), makes the block the shared
tip, records its content hash in the hash-to-height index, and ends with
the flush, after which the durable view matches the block store. -/
theorem C2_append_no_validation (repo : ChainRepository) (block : BlockChapter)
    (hids : (block.transaction_tales.map (fun t => t.story_id)).Nodup) :
    List.lookup (block_key block.chapter_number)
        (add_block_chapter repo block).1.block_db = some block ∧
    (∀ t ∈ block.transaction_tales,
      List.lookup t.story_id (add_block_chapter repo block).1.tx_db = some t) ∧
    (add_block_chapter repo block).1.chain_tip = some block ∧
    List.lookup block.chapter_essence (add_block_chapter repo block).1.block_index
      = some block.chapter_number ∧
    (add_block_chapter repo block).1.flushed_blocks
      = (add_block_chapter repo block).1.block_db ∧
    (add_block_chapter repo block).2.getLast? = some RepoEvent.flush := by
  refine ⟨?_, ?_, rfl, ?_, rfl, ?_⟩
  · simp [add_block_chapter, List.lookup]
  · intro t ht
    simpa [add_block_chapter] using
      lookup_store_transactions t block.transaction_tales repo.tx_db hids ht
  · simp [add_block_chapter, List.lookup]
  · have hsplit : (add_block_chapter repo block).2
        = (RepoEvent.insertBlock (block_key block.chapter_number) ::
            (block.transaction_tales.map (fun t => RepoEvent.insertTx t.story_id) ++
              [RepoEvent.updateTip, RepoEvent.updateIndex])) ++ [RepoEvent.flush] := by
      simp [add_block_chapter]
    rw [hsplit]
    exact List.getLast?_concat _

/-- Claim C2 witness: the amended statement at the concrete genesis
commit. -/
theorem C2_witness :
    List.lookup (block_key 0)
        (add_block_chapter repoG_ex (craft_genesis_chapter 0)).1.block_db
      = some (craft_genesis_chapter 0) ∧
    (add_block_chapter repoG_ex (craft_genesis_chapter 0)).2.getLast?
      = some RepoEvent.flush := by
  have h := C2_append_no_validation repoG_ex (craft_genesis_chapter 0) (by decide)
  exact ⟨h.1, h.2.2.2.2.2⟩

/-! Section: Claim C3 -/

/-- Claim C3 (code evaluation at a failing input): when no worker range
contains a qualifying nonce — here the candidate hash is constantly ff
while target 1 demands 15 leading zero hex characters — every worker
sends nothing, and the awaited recv can then never complete: the
prototype sender is still alive in perform_proof_of_work's own scope, so
the channel never closes and the written ProofOfWorkFailed branch is
unreachable.  The engine fails to return instead of reporting
exhaustion to the caller. -/
theorem C3_pow_blocks_forever (num_threads : Nat) :
    hash_meets_difficulty "ff" 1 = false ∧
    perform_proof_of_work (fun _ => "ff") 1 num_threads
      = RecvOutcome.blocksForever := by
  refine ⟨by decide, ?_⟩
  unfold perform_proof_of_work
  have hw : ∀ tid ∈ List.range num_threads,
      worker_sent (fun _ => "ff") 1 tid = none := by
    intro tid _
    unfold worker_sent
    rw [List.find?_eq_none.mpr]
    · rfl
    · intro x _
      show ¬ hash_meets_difficulty "ff" 1 = true
      decide
  rw [List.filterMap_eq_nil_iff.mpr hw]
  rfl

/-! Section: Claim C4 -/

/-- The surviving pool of one mining period with a non-empty pool: the
remainder of the descending-fee sort after the drained batch, whatever
the mining call returned. -/
theorem mining_period_fst (config : ChronicleConfiguration)
    (leaf_hash : String → String) (node_hash : String → String → String)
    (pow_result : Option (String × Nat)) (ts serialized_size : Nat)
    (mempool : List TransactionStory) (repo : ChainRepository)
    (h : mempool.isEmpty = false) :
    (mining_period config leaf_hash node_hash pow_result ts serialized_size
        mempool repo).1
      = (sort_by_fee_desc mempool).drop
          (min 1000 (sort_by_fee_desc mempool).length) := by
  unfold mining_period
  rw [h]
  simp only [Bool.false_eq_true, if_false]
  cases mine_new_chapter config leaf_hash node_hash pow_result ts
      serialized_size ((sort_by_fee_desc mempool).take
        (min 1000 (sort_by_fee_desc mempool).length)) repo with
  | error e => rfl
  | ok trip => rfl

/-- Claim C4 counterexample: with one pending transaction t_ex and a
proof-of-work search that reports failure, the mining attempt on the
drained batch fails with ProofOfWorkFailed and the pool handed to the
next period is empty — the selected transaction is lost, not retried. -/
theorem C4_counterexample :
    mine_new_chapter default_configuration leaf_hash_ex node_hash_ex none 0 0
        [t_ex] repoG_ex = .error (.ProofOfWorkFailed "No solution found") ∧
    (mining_period default_configuration leaf_hash_ex node_hash_ex none 0 0
        [t_ex] repoG_ex).1 = [] := by decide

/-- Claim C4 (amended): the period loop drains the selected batch out of
the pool before mining, and the pool it hands to the next period is the
remainder of the descending-fee sort in every case — the same list
whatever the mining outcome (in particular after a mining failure), so
drained transactions are never returned to the pool. -/
theorem C4_drained_pool (config : ChronicleConfiguration)
    (leaf_hash : String → String) (node_hash : String → String → String)
    (pow_result pow_result2 : Option (String × Nat)) (ts serialized_size : Nat)
    (mempool : List TransactionStory) (repo repo2 : ChainRepository)
    (h : mempool ≠ []) :
    (mining_period config leaf_hash node_hash pow_result ts serialized_size
        mempool repo).1
      = (sort_by_fee_desc mempool).drop (min 1000 mempool.length) ∧
    (mining_period config leaf_hash node_hash pow_result ts serialized_size
        mempool repo).1
      = (mining_period config leaf_hash node_hash pow_result2 ts
          serialized_size mempool repo2).1 := by
  have hne : mempool.isEmpty = false := by
    simpa [List.isEmpty_iff] using h
  have hlen : (sort_by_fee_desc mempool).length = mempool.length :=
    List.length_insertionSort _ _
  constructor
  · rw [mining_period_fst _ _ _ _ _ _ _ _ hne, hlen]
  · rw [mining_period_fst _ _ _ _ _ _ _ _ hne,
      mining_period_fst _ _ _ _ _ _ _ _ hne]

/-- Claim C4 witness: the amended statement at a concrete one-element
pool, comparing a successful and a failed mining outcome. -/
theorem C4_witness :
    (mining_period default_configuration leaf_hash_ex node_hash_ex
        (some ("h1", 7)) 0 0 [t_ex] repoG_ex).1
      = (sort_by_fee_desc [t_ex]).drop (min 1000 1) ∧
    (mining_period default_configuration leaf_hash_ex node_hash_ex
        (some ("h1", 7)) 0 0 [t_ex] repoG_ex).1
      = (mining_period default_configuration leaf_hash_ex node_hash_ex none 0 0
          [t_ex] repoG_ex).1 :=
  C4_drained_pool default_configuration leaf_hash_ex node_hash_ex
    (some ("h1", 7)) none 0 0 [t_ex] repoG_ex repoG_ex (by decide)

/-! Section: Claim C5 -/

/-- The ordering guarantee claimed for add_block_chapter traces: a tip
update happens only strictly after a flush has already happened. -/
def tip_updated_after_flush (tr : List RepoEvent) : Prop :=
  ∀ i : Nat, tr[i]? = some RepoEvent.updateTip →
    ∃ j : Nat, j < i ∧ tr[j]? = some RepoEvent.flush

/-- Claim C5 counterexample: in the commit trace of the genesis block the
tip update is the second step while the flush is the last — no flush
precedes the tip update, so the claimed ordering guarantee fails on an
actual commit. -/
theorem C5_counterexample :
    ¬ tip_updated_after_flush
        (add_block_chapter ChainRepository.empty (craft_genesis_chapter 0)).2 := by
  intro h
  obtain ⟨j, hj, hflush⟩ := h 1 (by decide)
  have hj0 : j = 0 := by omega
  subst hj0
  exact absurd hflush (by decide)

/-- Claim C5 (amended): in every add_block_chapter trace the tip update
strictly precedes the flush — the trace is a prefix that contains the
tip update and no flush, followed by the index update and the final
flush.  The flush does happen before the call returns, but a reader
synchronizing on the shared tip can observe the new block before it is
durable on disk. -/
theorem C5_tip_before_flush (repo : ChainRepository) (block : BlockChapter) :
    ∃ pre, (add_block_chapter repo block).2
        = pre ++ [RepoEvent.updateIndex, RepoEvent.flush] ∧
      RepoEvent.updateTip ∈ pre ∧ RepoEvent.flush ∉ pre := by
  refine ⟨RepoEvent.insertBlock (block_key block.chapter_number) ::
    (block.transaction_tales.map (fun t => RepoEvent.insertTx t.story_id) ++
      [RepoEvent.updateTip]), ?_, ?_, ?_⟩
  · simp [add_block_chapter]
  · simp
  · simp [List.mem_map]

/-! Section: Claim C6 -/

/-- A ledger holding the single unspent output a:0 of value 5000. -/
def ledger6_ex : UTXOLedger :=
  { unspent_outputs := []
    spent_outputs := []
    db := [("a:0",
      { recipient_address := [1], value_locked := 5000
        locking_script := pay_to_key_script [1] })] }

/-- An output of value 2^63; two of them overflow u64. -/
def big_out_ex : UTXOOutput :=
  { recipient_address := [2], value_locked := 2 ^ 63
    locking_script := pay_to_key_script [2] }

/-- A story whose outputs mathematically total 2^64 — far more than its
5000-value input — with fee 1000. -/
def story6_ex : TransactionStory :=
  { story_id := "s6"
    inputs_consumed := [{ previous_story_id := "a", output_index := 0 }]
    outputs_created := [big_out_ex, big_out_ex]
    story_fee := 1000
    timestamp_of_telling := 0
    transaction_nonce := 1
    digital_signature := []
    public_key_of_narrator := [1] }

/-- Claim C6 counterexample: the outputs of story6_ex total 2^64, which
overflows u64, yet validation accepts the story — the output summation
wrapped silently to 0 instead of reporting a hard error, so a story
creating vastly more value than its 5000-value input passes the funds
check. -/
theorem C6_counterexample :
    U64 ≤ (story6_ex.outputs_created.map (fun o => o.value_locked)).sum ∧
    wsum (story6_ex.outputs_created.map (fun o => o.value_locked)) = 0 ∧
    story_proves_its_authenticity sig_always_ok 1000 ledger6_ex story6_ex
      = .ok () := by decide

/-- Claim C6 (amended): only the input-value summation is checked —
whenever every input resolves, verify_and_calculate_input_value returns
the exact mathematical sum of the resolved values when that sum fits in
u64 and the hard error ValueOverflow when it does not, never a wrapped
value; the output summation and the output-plus-fee addition, by
contrast, use wrapping u64 arithmetic and can wrap silently (see the
counterexample). -/
theorem C6_checked_input_sum (ledger : UTXOLedger) (story : TransactionStory)
    (vs : List Nat)
    (h : resolved_input_values ledger story.inputs_consumed = some vs) :
    verify_and_calculate_input_value ledger story =
      (if vs.sum < U64 then .ok vs.sum else .error .ValueOverflow) := by
  have hs := input_value_loop_spec ledger story.public_key_of_narrator
    story.inputs_consumed 0 vs (by decide) h
  simpa [verify_and_calculate_input_value] using hs

/-- Claim C6 witness: the amended statement evaluated at the ledger and
story of the counterexample — the checked input sum is exactly 5000. -/
theorem C6_witness :
    verify_and_calculate_input_value ledger6_ex story6_ex = .ok 5000 := by
  have h := C6_checked_input_sum ledger6_ex story6_ex [5000] (by decide)
  rw [h, if_pos (by decide)]
  rfl

/-! Section: Claim C7 -/

/-- Claim C7 counterexample: the committed genesis block has an empty
transaction list, the Merkle builder yields the all-zero sentinel on
that list, yet the genesis block's stored root is the literal string
genesis — a committed block whose stored root differs from the builder
applied to its transaction ids, and a genesis root that is not the
sentinel. -/
theorem C7_counterexample :
    (craft_and_commit_genesis_chapter ChainRepository.empty 0).1.chain_tip
      = some (craft_genesis_chapter 0) ∧
    (craft_genesis_chapter 0).transaction_tales = [] ∧
    weave_merkle_tree_of_truth leaf_hash_ex node_hash_ex
        (craft_genesis_chapter 0).transaction_tales = zeros64 ∧
    (craft_genesis_chapter 0).merkle_tree_of_truth ≠ zeros64 := by decide

/-- Claim C7 (amended): every block committed by mine_new_chapter stores
as Merkle root exactly the builder applied to its ordered transactions,
and the builder yields the all-zero sentinel on the empty list; the
genesis block however bypasses the builder — its stored root is the
literal string genesis, not the sentinel. -/
theorem C7_merkle_root (config : ChronicleConfiguration)
    (leaf_hash : String → String) (node_hash : String → String → String)
    (pow_result : Option (String × Nat)) (ts serialized_size gts : Nat)
    (transactions : List TransactionStory) (chain_repo repo1 : ChainRepository)
    (events : List RepoEvent) (block : BlockChapter)
    (h : mine_new_chapter config leaf_hash node_hash pow_result ts
        serialized_size transactions chain_repo = .ok (repo1, events, block)) :
    block.merkle_tree_of_truth
        = weave_merkle_tree_of_truth leaf_hash node_hash block.transaction_tales ∧
    repo1.chain_tip = some block ∧
    weave_merkle_tree_of_truth leaf_hash node_hash [] = zeros64 ∧
    (craft_genesis_chapter gts).merkle_tree_of_truth = "genesis" := by
  obtain ⟨h1, h2, _h3, h4⟩ := mine_new_chapter_ok_spec _ _ _ _ _ _ _ _ _ _ _ h
  exact ⟨by rw [h1, h2], h4, rfl, rfl⟩

/-- Claim C7 witness: a concrete successful mining commit whose block
stores the builder's root for its transactions. -/
theorem C7_witness :
    ∃ repo1 events block,
      mine_new_chapter default_configuration leaf_hash_ex node_hash_ex
          (some ("h1", 7)) 0 0 [t_ex] repoG_ex = .ok (repo1, events, block) ∧
      block.merkle_tree_of_truth
        = weave_merkle_tree_of_truth leaf_hash_ex node_hash_ex
            block.transaction_tales := by
  obtain ⟨r, e, b, h⟩ : ∃ r e b, mine_new_chapter default_configuration
      leaf_hash_ex node_hash_ex (some ("h1", 7)) 0 0 [t_ex] repoG_ex
      = .ok (r, e, b) := ⟨_, _, _, rfl⟩
  exact ⟨r, e, b, h,
    (C7_merkle_root default_configuration leaf_hash_ex node_hash_ex
      (some ("h1", 7)) 0 0 0 [t_ex] repoG_ex r e b h).1⟩

/-! Section: Claim C8 -/

/-- Claim C8 counterexample: worker threads 0 and 1 are distinct, yet
nonce 1000000 lies in both of their search ranges — the ranges (stride
1,000,000 against length 10,000,000) overlap, so the partition is not
disjoint. -/
theorem C8_counterexample :
    (0 : Nat) ≠ 1 ∧ in_miner_range 0 1000000 ∧ in_miner_range 1 1000000 := by
  decide

/-- Claim C8 (amended): worker thread i searches the contiguous range
starting at i * 1,000,000 of length 10,000,000; the ranges of workers i
and j are disjoint exactly when their indices differ by at least 10 —
so every pair of distinct workers among the first ten overlaps. -/
theorem C8_range_overlap (i j : Nat) :
    (∀ n, ¬ (in_miner_range i n ∧ in_miner_range j n))
      ↔ (i + 10 ≤ j ∨ j + 10 ≤ i) := by
  simp only [in_miner_range, miner_start, miner_range_len]
  constructor
  · intro h
    by_contra hc
    push_neg at hc
    rcases le_total i j with hle | hle
    · exact h (j * 1000000) ⟨⟨by omega, by omega⟩, by omega, by omega⟩
    · exact h (i * 1000000) ⟨⟨by omega, by omega⟩, by omega, by omega⟩
  · intro h n hn
    omega

/-- Claim C8 witness: the amended statement applied to workers 0 and 10,
whose ranges really are disjoint. -/
theorem C8_witness :
    ¬ (in_miner_range 0 10000000 ∧ in_miner_range 10 10000000) :=
  (C8_range_overlap 0 10).mpr (Or.inl (by omega)) 10000000

/-! Section: Claim C9 -/

/-- Claim C9: absent u64 overflow (amount + fee fits in u64 and the
total value of the candidate UTXOs fits in u64), every transaction
successfully returned by create_transaction balances exactly — the sum
of its output values plus its declared fee equals the sum of the values
of the selected inputs, its inputs are exactly the selected references —
and every output after the first (the change output, synthesized only
for strictly positive change) has strictly positive value, so no
zero-value change output is ever created. -/
theorem C9_create_transaction_balance (gen_tx_id : String) (gen_nonce ts : Nat)
    (sign : List Nat → List Nat) (sender_address : List Nat)
    (utxos : List (UTXOReference × UTXOOutput)) (to_address : List Nat)
    (amount fee : Nat) (tx : TransactionStory)
    (hfit : amount + fee < U64)
    (hvals : ((utxos.map (fun u => u.2.value_locked)).sum) < U64)
    (h : create_transaction gen_tx_id gen_nonce ts sign sender_address utxos
        to_address amount fee = .ok tx) :
    ((tx.outputs_created.map (fun o => o.value_locked)).sum + tx.story_fee
        = (((select_utxos_loop (amount + fee) [] 0 utxos).1.map
            (fun u => u.2.value_locked)).sum)) ∧
    tx.inputs_consumed
        = (select_utxos_loop (amount + fee) [] 0 utxos).1.map (fun u => u.1) ∧
    (∀ o ∈ tx.outputs_created.drop 1, 0 < o.value_locked) := by
  have htarget : wadd amount fee = amount + fee := wadd_eq hfit
  obtain ⟨hsum, hlt⟩ := select_utxos_loop_spec (amount + fee) utxos [] 0 rfl
    (by simpa using hvals)
  simp only [create_transaction, htarget] at h
  by_cases hcover : (select_utxos_loop (amount + fee) [] 0 utxos).2 < amount + fee
  · rw [if_pos hcover] at h
    exact absurd h (by simp)
  · rw [if_neg hcover] at h
    push_neg at hcover
    have hamount : amount ≤ (select_utxos_loop (amount + fee) [] 0 utxos).2 := by
      omega
    have hsub1 : wsub (select_utxos_loop (amount + fee) [] 0 utxos).2 amount
        = (select_utxos_loop (amount + fee) [] 0 utxos).2 - amount :=
      wsub_eq hlt hamount
    have hsub2 : wsub ((select_utxos_loop (amount + fee) [] 0 utxos).2 - amount) fee
        = (select_utxos_loop (amount + fee) [] 0 utxos).2 - amount - fee :=
      wsub_eq (by omega) (by omega)
    rw [hsub1, hsub2] at h
    simp only [Except.ok.injEq] at h
    subst h
    by_cases hchange :
        0 < (select_utxos_loop (amount + fee) [] 0 utxos).2 - amount - fee
    · rw [if_pos hchange]
      refine ⟨?_, rfl, ?_⟩
      · simp only [List.map_cons, List.map_nil, List.sum_cons, List.sum_nil]
        omega
      · intro o ho
        simp only [List.drop_succ_cons, List.drop_zero, List.mem_singleton] at ho
        subst ho
        exact hchange
    · rw [if_neg hchange]
      refine ⟨?_, rfl, ?_⟩
      · simp only [List.map_cons, List.map_nil, List.sum_cons, List.sum_nil]
        omega
      · intro o ho
        exact absurd ho (by simp)

/-- A single candidate UTXO of value 100 for the C9 witness. -/
def utxo9_ex : UTXOReference × UTXOOutput :=
  ({ previous_story_id := "x", output_index := 0 },
   { recipient_address := [1], value_locked := 100
     locking_script := pay_to_key_script [1] })

/-- Claim C9 witness: a concrete spend of 30 with fee 10 from a 100-value
UTXO — the returned transaction balances against the selected input. -/
theorem C9_witness :
    ∃ tx, create_transaction "t" 1 0 (fun _ => []) [1] [utxo9_ex] [2] 30 10
        = .ok tx ∧
      ((tx.outputs_created.map (fun o => o.value_locked)).sum + tx.story_fee
        = (((select_utxos_loop 40 [] 0 [utxo9_ex]).1.map
            (fun u => u.2.value_locked)).sum)) ∧
      (∀ o ∈ tx.outputs_created.drop 1, 0 < o.value_locked) := by
  obtain ⟨tx, h⟩ : ∃ tx, create_transaction "t" 1 0 (fun _ => []) [1]
      [utxo9_ex] [2] 30 10 = .ok tx := ⟨_, rfl⟩
  have hc := C9_create_transaction_balance "t" 1 0 (fun _ => []) [1]
    [utxo9_ex] [2] 30 10 tx (by decide) (by decide) h
  exact ⟨tx, h, hc.1, hc.2.2⟩

/-! Section: Claim C10 -/

/-- Claim C10: after every admission the pool holds at most 10000
stories.  When the push does not exceed 10000 the pool is simply the
pushed pool; when it does, the pool becomes the first 10000 of the
descending-fee sort of the pushed pool — kept and evicted parts together
are a permutation of the pushed pool, and every evicted story's fee is
at most every kept story's fee. -/
theorem C10_mempool_bound (mempool : List TransactionStory)
    (story : TransactionStory) :
    (mempool_push mempool story).length ≤ 10000 ∧
    (mempool.length + 1 ≤ 10000 →
      mempool_push mempool story = mempool ++ [story]) ∧
    (10000 < mempool.length + 1 →
      mempool_push mempool story
          = (sort_by_fee_desc (mempool ++ [story])).take 10000 ∧
        ((mempool_push mempool story) ++
            (sort_by_fee_desc (mempool ++ [story])).drop 10000).Perm
          (mempool ++ [story]) ∧
        ∀ kept ∈ mempool_push mempool story,
          ∀ evicted ∈ (sort_by_fee_desc (mempool ++ [story])).drop 10000,
            evicted.story_fee ≤ kept.story_fee) := by
  have hp : (mempool ++ [story]).length = mempool.length + 1 := by simp
  by_cases hov : 10000 < (mempool ++ [story]).length
  · have hpushed : mempool_push mempool story
        = (sort_by_fee_desc (mempool ++ [story])).take 10000 := by
      simp only [mempool_push, hov, if_pos]
    have hsorted : List.Sorted fee_ge (sort_by_fee_desc (mempool ++ [story])) :=
      List.sorted_insertionSort fee_ge (mempool ++ [story])
    have hsplit := List.take_append_drop 10000
      (sort_by_fee_desc (mempool ++ [story]))
    have hcross := (List.pairwise_append.mp (by
      rw [hsplit]; exact hsorted)).2.2
    refine ⟨?_, ?_, fun _ => ⟨hpushed, ?_, ?_⟩⟩
    · rw [hpushed]
      simp [List.length_take]
    · intro hle
      rw [hp] at hov
      omega
    · rw [hpushed, hsplit]
      exact List.perm_insertionSort fee_ge (mempool ++ [story])
    · intro kept hk evicted he
      rw [hpushed] at hk
      exact hcross kept hk evicted he
  · have hpushed : mempool_push mempool story = mempool ++ [story] := by
      simp only [mempool_push, hov, if_neg, if_false]
    refine ⟨?_, fun _ => hpushed, fun hgt => ?_⟩
    · rw [hpushed]
      omega
    · rw [hp] at hov
      omega

/-- Claim C10 witness: admitting a story into the empty pool keeps the
bound and is a plain push. -/
theorem C10_witness :
    (mempool_push [] t_ex).length ≤ 10000 ∧ mempool_push [] t_ex = [t_ex] := by
  have h := C10_mempool_bound [] t_ex
  exact ⟨h.1, by simpa using h.2.1 (by decide)⟩

end Chronicle
